import Mathlib

/-!
Verification development for the desktop URL-keyed file cache
(`src/desktop/src-tauri/src/image_cache.rs`).

The pure key derivation (`get_cache_filename`) is embedded directly:
SHA-256 over the URL's UTF-8 bytes, hex-encoded, plus an extension
inferred from the URL text.  The effectful Tauri commands
(`get_cached_file_path`, `get_cached_image_path`, `clear_image_cache`,
`get_cache_size`) are embedded by explicit state passing over a `World`
(the cache root directory and its entries) together with an `Env` of
oracles fixing the outcome of each external call (path provider,
directory creation, HTTP fetch, file write, ...) and an event log
recording the filesystem and network operations performed.
-/

namespace ImageCache

/-! ### 32-bit arithmetic over `Nat` -/

/-- Addition modulo `2^32` (wrapping `u32` addition). -/
def add32 (x y : Nat) : Nat := (x + y) % 4294967296

/-- Right rotation of a 32-bit word. -/
def rotr (n x : Nat) : Nat := ((x >>> n) ||| (x <<< (32 - n))) % 4294967296

/-! ### SHA-256 (the `sha2` crate's `Sha256` as used by `get_cache_filename`) -/

/-- SHA-256 round constants (FIPS 180-4, in decimal). -/
def shaK : List Nat :=
  [1116352408, 1899447441, 3049323471, 3921009573, 961987163,
   1508970993, 2453635748, 2870763221, 3624381080, 310598401,
   607225278, 1426881987, 1925078388, 2162078206, 2614888103,
   3248222580, 3835390401, 4022224774, 264347078, 604807628,
   770255983, 1249150122, 1555081692, 1996064986, 2554220882,
   2821834349, 2952996808, 3210313671, 3336571891, 3584528711,
   113926993, 338241895, 666307205, 773529912, 1294757372,
   1396182291, 1695183700, 1986661051, 2177026350, 2456956037,
   2730485921, 2820302411, 3259730800, 3345764771, 3516065817,
   3600352804, 4094571909, 275423344, 430227734, 506948616,
   659060556, 883997877, 958139571, 1322822218, 1537002063,
   1747873779, 1955562222, 2024104815, 2227730452, 2361852424,
   2428436474, 2756734187, 3204031479, 3329325298]

/-- SHA-256 initial hash value (FIPS 180-4, in decimal). -/
def shaH0 : List Nat :=
  [1779033703, 3144134277, 1013904242, 2773480762,
   1359893119, 2600822924, 528734635, 1541459225]

/-- The big sigma-0 word function of the SHA-256 round. -/
def sigB0 (x : Nat) : Nat := (rotr 2 x) ^^^ (rotr 13 x) ^^^ (rotr 22 x)

/-- The big sigma-1 word function of the SHA-256 round. -/
def sigB1 (x : Nat) : Nat := (rotr 6 x) ^^^ (rotr 11 x) ^^^ (rotr 25 x)

/-- The small sigma-0 word function of the message schedule. -/
def sigS0 (x : Nat) : Nat := (rotr 7 x) ^^^ (rotr 18 x) ^^^ (x >>> 3)

/-- The small sigma-1 word function of the message schedule. -/
def sigS1 (x : Nat) : Nat := (rotr 17 x) ^^^ (rotr 19 x) ^^^ (x >>> 10)

/-- The choose word function: bits of `y` where `x` is set, of `z` elsewhere. -/
def chFn (x y z : Nat) : Nat := (x &&& y) ^^^ ((x ^^^ 4294967295) &&& z)

/-- The majority word function. -/
def majFn (x y z : Nat) : Nat := (x &&& y) ^^^ (x &&& z) ^^^ (y &&& z)

/-- The eight 32-bit working variables of the compression loop. -/
structure S8 where
  a : Nat
  b : Nat
  c : Nat
  d : Nat
  e : Nat
  f : Nat
  g : Nat
  h : Nat

/-- One SHA-256 round, consuming one `(k, w)` pair. -/
def roundStep (st : S8) (kw : Nat × Nat) : S8 :=
  let t1 := add32 (add32 (add32 (add32 st.h (sigB1 st.e)) (chFn st.e st.f st.g)) kw.1) kw.2
  let t2 := add32 (sigB0 st.a) (majFn st.a st.b st.c)
  ⟨add32 t1 t2, st.a, st.b, st.c, add32 st.d t1, st.e, st.f, st.g⟩

/-- Big-endian 32-bit word from the first four bytes of a list. -/
def be4 : List Nat → Nat
  | b0 :: b1 :: b2 :: b3 :: _ => (b0 <<< 24) + (b1 <<< 16) + (b2 <<< 8) + b3
  | _ => 0

/-- The sixteen message words of one 64-byte block. -/
def blockWords (block : List Nat) : List Nat :=
  (List.range 16).map (fun i => be4 (block.drop (4 * i)))

/-- Extend a word list by the next scheduled word (the `W[t]` recurrence). -/
def scheduleStep (ws : List Nat) : List Nat :=
  ws ++ [add32 (add32 (sigS1 (ws.getD (ws.length - 2) 0)) (ws.getD (ws.length - 7) 0))
          (add32 (sigS0 (ws.getD (ws.length - 15) 0)) (ws.getD (ws.length - 16) 0))]

/-- The 64-entry message schedule of one block. -/
def schedule (ws : List Nat) : List Nat :=
  (List.range 48).foldl (fun acc _ => scheduleStep acc) ws

/-- Compress one 64-byte block into the running 8-word hash state. -/
def compressBlock (st : List Nat) (block : List Nat) : List Nat :=
  let ws := schedule (blockWords block)
  let s0 : S8 := ⟨st.getD 0 0, st.getD 1 0, st.getD 2 0, st.getD 3 0,
                  st.getD 4 0, st.getD 5 0, st.getD 6 0, st.getD 7 0⟩
  let s := (shaK.zip ws).foldl roundStep s0
  [add32 (st.getD 0 0) s.a, add32 (st.getD 1 0) s.b, add32 (st.getD 2 0) s.c,
   add32 (st.getD 3 0) s.d, add32 (st.getD 4 0) s.e, add32 (st.getD 5 0) s.f,
   add32 (st.getD 6 0) s.g, add32 (st.getD 7 0) s.h]

/-- SHA-256 padding: `0x80`, zeros to 56 mod 64, then the 64-bit big-endian bit length. -/
def padMsg (msg : List Nat) : List Nat :=
  msg ++ [0x80] ++ List.replicate ((120 - (msg.length + 1) % 64) % 64) 0 ++
    (List.range 8).map (fun i => ((8 * msg.length) >>> (8 * (7 - i))) % 256)

/-- Serialize 32-bit words to big-endian bytes. -/
def wordsToBytes (ws : List Nat) : List Nat :=
  ws.foldr (fun w acc => (w >>> 24) % 256 :: (w >>> 16) % 256 :: (w >>> 8) % 256 :: w % 256 :: acc) []

/-- SHA-256 digest (32 bytes) of a byte string. -/
def sha256 (msg : List Nat) : List Nat :=
  let padded := padMsg msg
  wordsToBytes ((List.range (padded.length / 64)).foldl
    (fun st i => compressBlock st ((padded.drop (64 * i)).take 64)) shaH0)

/-- Lowercase hex digit for a value below 16. -/
def hexDigit (n : Nat) : Char :=
  if n < 10 then Char.ofNat (48 + n) else Char.ofNat (87 + n)

/-- Lowercase hex characters of a byte string, two digits per byte
(the `sha2` digest's `LowerHex` rendering used by `format!`). -/
def bytesToHex (bs : List Nat) : List Char :=
  bs.foldr (fun b acc => hexDigit (b / 16) :: hexDigit (b % 16) :: acc) []

/-- Hex-encoded SHA-256 digest of a byte string. -/
def sha256hex (msg : List Nat) : String :=
  String.mk (bytesToHex (sha256 msg))

/-- UTF-8 encoding of one character. -/
def utf8Encode (c : Char) : List Nat :=
  let n := c.toNat
  if n < 128 then [n]
  else if n < 2048 then [192 + n / 64, 128 + n % 64]
  else if n < 65536 then [224 + n / 4096, 128 + (n / 64) % 64, 128 + n % 64]
  else [240 + n / 262144, 128 + (n / 4096) % 64, 128 + (n / 64) % 64, 128 + n % 64]

/-- The UTF-8 bytes of a string (Rust's `str::as_bytes`). -/
def strBytes (s : String) : List Nat :=
  s.data.foldr (fun c acc => utf8Encode c ++ acc) []

/-! ### Extension inference (`get_cache_filename`, lines 30-107) -/

/-- First segment of `split(sep)`: the characters before the first separator
(Rust's `split(sep).next()` always yields it). -/
def splitFirst (sep : Char) (cs : List Char) : List Char :=
  cs.takeWhile (fun c => c != sep)

/-- First segment of `rsplit(sep)`: the characters after the last separator
(the whole list when the separator is absent). -/
def rsplitFirst (sep : Char) (cs : List Char) : List Char :=
  (cs.reverse.takeWhile (fun c => c != sep)).reverse

/-- The fixed allow-list of known extensions (`match ext_lower.as_str()`),
with `jpeg` mapped to `jpg`. -/
def extLookup (s : String) : Option String :=
  match s with
  | "jpg" | "jpeg" => some "jpg"
  | "png" => some "png"
  | "gif" => some "gif"
  | "webp" => some "webp"
  | "bmp" => some "bmp"
  | "svg" => some "svg"
  | "ico" => some "ico"
  | "mp4" => some "mp4"
  | "avi" => some "avi"
  | "mov" => some "mov"
  | "mkv" => some "mkv"
  | "webm" => some "webm"
  | "flv" => some "flv"
  | "wmv" => some "wmv"
  | "m4v" => some "m4v"
  | "mp3" => some "mp3"
  | "wav" => some "wav"
  | "ogg" => some "ogg"
  | "flac" => some "flac"
  | "m4a" => some "m4a"
  | "aac" => some "aac"
  | "wma" => some "wma"
  | "pdf" => some "pdf"
  | "txt" => some "txt"
  | "doc" => some "doc"
  | "docx" => some "docx"
  | "xls" => some "xls"
  | "xlsx" => some "xlsx"
  | "ppt" => some "ppt"
  | "pptx" => some "pptx"
  | "csv" => some "csv"
  | "json" => some "json"
  | "xml" => some "xml"
  | "zip" => some "zip"
  | "rar" => some "rar"
  | "7z" => some "7z"
  | "tar" => some "tar"
  | "gz" => some "gz"
  | "js" => some "js"
  | "ts" => some "ts"
  | "jsx" => some "jsx"
  | "tsx" => some "tsx"
  | "py" => some "py"
  | "java" => some "java"
  | "cpp" => some "cpp"
  | "c" => some "c"
  | "go" => some "go"
  | "rs" => some "rs"
  | "html" => some "html"
  | "css" => some "css"
  | _ => none

/-- Extension inferred from a URL, exactly as in `get_cache_filename`:
strip the query (`split('?').next().unwrap_or(url)`), take the last
`/`-segment (`rsplit('/').next()`), take the part after the last dot
(`rsplit('.').next()` — the whole segment when it has no dot), lower-case
it and look it up, defaulting to `"bin"`.  Lower-casing is modelled
per character with `Char.toLower`, which agrees with Rust's
`to_lowercase` on ASCII (every allow-list entry is ASCII). -/
def getExtension (url : String) : String :=
  let urlWithoutQuery := splitFirst '?' url.data
  let lastSeg := rsplitFirst '/' urlWithoutQuery
  let extCandidate := rsplitFirst '.' lastSeg
  (extLookup (String.mk (extCandidate.map Char.toLower))).getD "bin"

/-- `get_cache_filename` (lines 25-110): `format!("{:x}.{}", sha256(url), extension)`. -/
def get_cache_filename (url : String) : String :=
  sha256hex (strBytes url) ++ "." ++ getExtension url

/-! ### The effectful commands

The cache root (`<app-cache-root>/images`) is a single flat directory;
every file the code touches inside it is addressed by its final
component, so the `World` keys directory entries by that name.  The OS
path type stays abstract (`P`), with `Env.join` for `PathBuf::join` and
`Env.toStr` for the possibly-failing `Path::to_str`. -/

/-- One entry of the cache root directory, as `read_dir` yields it:
a regular file with its size, a subdirectory, or an entry whose
`DirEntry`/`metadata()` read fails (skipped by `entries.flatten()` /
`if let Ok(metadata)`). -/
inductive DirEntry where
  | file (name : String) (size : Nat)
  | subdir (name : String)
  | unreadable (name : String)
deriving DecidableEq

/-- The mutable filesystem state owned by the cache: whether the cache
root directory exists, and its entries. -/
structure World where
  dirExists : Bool
  entries : List DirEntry
deriving DecidableEq

/-- Log of the external operations a command performs. -/
inductive Event where
  | fetch (url : String)
  | fsCreateDir
  | fsExistsCheck (name : String)
  | fsWrite (name : String)
  | fsRemoveDirAll
  | fsReadDir
deriving DecidableEq

/-- An HTTP response: status code plus the possibly-failing body read
(`response.bytes()`). -/
structure HttpResponse where
  status : Nat
  body : Except String (List Nat)

/-- Oracles fixing the outcome of each external call during one run. -/
structure Env (P : Type) where
  /-- `app.path().app_cache_dir()`. -/
  appCacheDir : Except String P
  /-- `PathBuf::join`. -/
  join : P → String → P
  /-- `Path::to_str`, `none` when the path is not valid UTF-8. -/
  toStr : P → Option String
  /-- Outcome of the `fs::create_dir_all` call in `get_cache_dir`. -/
  createDirAllErr : Option String
  /-- Outcome of the re-creating `fs::create_dir_all` in `clear_image_cache`. -/
  recreateDirErr : Option String
  /-- Outcome of `fs::remove_dir_all` in `clear_image_cache`. -/
  removeDirAllErr : Option String
  /-- Whether `fs::read_dir` in `get_cache_size` succeeds. -/
  readDirOk : Bool
  /-- `reqwest::get`: transport error or a response. -/
  fetch : String → Except String HttpResponse
  /-- Outcome of `fs::write` at a given cache filename. -/
  writeErr : String → Option String

/-- Effect of a successful `create_dir_all` on the cache root: creates it
empty when absent, no-op when present. -/
def createDirUpdate (w : World) : World :=
  if w.dirExists then w else { dirExists := true, entries := [] }

/-- `get_cache_dir` (lines 10-22): obtain the app cache dir, join
`"images"`, ensure the directory exists. -/
def get_cache_dir {P : Type} (env : Env P) (w : World) :
    Except String P × World × List Event :=
  match env.appCacheDir with
  | .error e => (.error ("获取缓存目录失败: " ++ e), w, [])
  | .ok cacheDir =>
    let imageCacheDir := env.join cacheDir "images"
    match env.createDirAllErr with
    | some e => (.error ("创建缓存目录失败: " ++ e), w, [Event.fsCreateDir])
    | none => (.ok imageCacheDir, createDirUpdate w, [Event.fsCreateDir])

/-- Rust's `StatusCode::is_success`: `200..=299`. -/
def is_success (status : Nat) : Bool := 200 ≤ status && status < 300

def entryName : DirEntry → String
  | .file n _ => n
  | .subdir n => n
  | .unreadable n => n

/-- Effect of `fs::write` at a cache filename: full-content overwrite. -/
def writeFileUpdate (w : World) (f : String) (sz : Nat) : World :=
  { w with entries := DirEntry.file f sz :: w.entries.filter (fun e => entryName e != f) }

/-- `cache_path.exists()` for a path directly inside the cache root. -/
def pathExists (w : World) (f : String) : Bool :=
  w.entries.any (fun e => entryName e == f)

/-- `download_and_cache` (lines 113-138): GET the URL, fail on transport
error / non-2xx / body-read error, else write the bytes to the cache
path (identified by its filename inside the cache root). -/
def download_and_cache {P : Type} (env : Env P) (url : String) (filename : String)
    (w : World) : Except String Unit × World × List Event :=
  match env.fetch url with
  | .error e => (.error ("下载图片失败: " ++ e), w, [Event.fetch url])
  | .ok resp =>
    if !(is_success resp.status) then
      (.error ("下载失败，HTTP 状态码: " ++ toString resp.status), w, [Event.fetch url])
    else
      match resp.body with
      | .error e => (.error ("读取图片数据失败: " ++ e), w, [Event.fetch url])
      | .ok bytes =>
        match env.writeErr filename with
        | some e =>
          (.error ("保存图片到缓存失败: " ++ e), w, [Event.fetch url, Event.fsWrite filename])
        | none =>
          (.ok (), writeFileUpdate w filename bytes.length,
           [Event.fetch url, Event.fsWrite filename])

/-- Byte-wise string comparison used for Rust's `str::starts_with` with an
ASCII pattern. -/
def listPre : List Char → List Char → Bool
  | [], _ => true
  | _ :: _, [] => false
  | a :: as, b :: bs => a == b && listPre as bs

def strStartsWith (s pat : String) : Bool := listPre pat.data s.data

/-- Whether `resolve` treats the input as a remote URL. -/
def isHttpUrl (url : String) : Bool :=
  strStartsWith url "http://" || strStartsWith url "https://"

/-- `get_cached_file_path` (lines 146-178): short-circuit non-HTTP input,
get the cache dir, derive the filename, return the cached path on a hit,
else download; on download failure fall back to the original URL. -/
def get_cached_file_path {P : Type} (env : Env P) (url : String) (w : World) :
    Except String String × World × List Event :=
  if !(strStartsWith url "http://") && !(strStartsWith url "https://") then
    (.ok url, w, [])
  else
    match get_cache_dir env w with
    | (.error e, w1, evs) => (.error e, w1, evs)
    | (.ok cacheDir, w1, evs) =>
      let filename := get_cache_filename url
      let cachePath := env.join cacheDir filename
      if pathExists w1 filename then
        match env.toStr cachePath with
        | some s => (.ok s, w1, evs ++ [Event.fsExistsCheck filename])
        | none => (.error "路径转换失败", w1, evs ++ [Event.fsExistsCheck filename])
      else
        match download_and_cache env url filename w1 with
        | (.ok _, w2, evs2) =>
          (match env.toStr cachePath with
           | some s => (.ok s, w2, evs ++ [Event.fsExistsCheck filename] ++ evs2)
           | none => (.error "路径转换失败", w2, evs ++ [Event.fsExistsCheck filename] ++ evs2))
        | (.error _, w2, evs2) => (.ok url, w2, evs ++ [Event.fsExistsCheck filename] ++ evs2)

/-- `get_cached_image_path` (lines 182-184): kept for backward
compatibility, delegates to `get_cached_file_path`. -/
def get_cached_image_path {P : Type} (env : Env P) (url : String) (w : World) :
    Except String String × World × List Event :=
  get_cached_file_path env url w

/-- `clear_image_cache` (lines 188-201): get the cache dir (which also
creates it), and if it exists remove it recursively and recreate it. -/
def clear_image_cache {P : Type} (env : Env P) (w : World) :
    Except String Unit × World × List Event :=
  match get_cache_dir env w with
  | (.error e, w1, evs) => (.error e, w1, evs)
  | (.ok _cacheDir, w1, evs) =>
    if w1.dirExists then
      match env.removeDirAllErr with
      | some e => (.error ("清除缓存失败: " ++ e), w1, evs ++ [Event.fsRemoveDirAll])
      | none =>
        match env.recreateDirErr with
        | some e =>
          (.error ("创建缓存目录失败: " ++ e), { dirExists := false, entries := [] },
           evs ++ [Event.fsRemoveDirAll, Event.fsCreateDir])
        | none =>
          (.ok (), { dirExists := true, entries := [] },
           evs ++ [Event.fsRemoveDirAll, Event.fsCreateDir])
    else (.ok (), w1, evs)

/-- The summation loop of `get_cache_size` (lines 212-222): regular files
add their size; subdirectories add nothing; entries whose read fails are
silently skipped. -/
def sizeLoop : List DirEntry → Nat → Nat
  | [], acc => acc
  | DirEntry.file _ sz :: rest, acc => sizeLoop rest (acc + sz)
  | DirEntry.subdir _ :: rest, acc => sizeLoop rest acc
  | DirEntry.unreadable _ :: rest, acc => sizeLoop rest acc

/-- `get_cache_size` (lines 205-225): get the cache dir, return 0 when it
does not exist, else sum the sizes of the regular files directly inside
it (0 when `read_dir` itself fails). -/
def get_cache_size {P : Type} (env : Env P) (w : World) :
    Except String Nat × World × List Event :=
  match get_cache_dir env w with
  | (.error e, w1, evs) => (.error e, w1, evs)
  | (.ok _, w1, evs) =>
    if !w1.dirExists then (.ok 0, w1, evs)
    else if env.readDirOk then
      (.ok (sizeLoop w1.entries 0), w1, evs ++ [Event.fsReadDir])
    else (.ok 0, w1, evs ++ [Event.fsReadDir])

/-! ### Specification-side definitions (for the claims' own wording) -/

/-- The trailing dot-suffix of a segment: the part after the last `'.'`
when the segment contains a dot, absent otherwise. -/
def dotSuffix (cs : List Char) : Option (List Char) :=
  if cs.contains '.' then some (rsplitFirst '.' cs) else none

/-- Extension inference as the amended claim words it: strip the query,
take the final path segment, take its trailing dot-suffix — or, when the
segment contains no dot, the whole segment — lower-case the candidate
and look it up in the allow-list, defaulting to `"bin"`. -/
def extensionSpec (url : String) : String :=
  let seg := rsplitFirst '/' (splitFirst '?' url.data)
  let cand := match dotSuffix seg with
    | some suf => suf
    | none => seg
  (extLookup (String.mk (cand.map Char.toLower))).getD "bin"

/-- Sum of the sizes of the regular files among a directory's entries. -/
def sumRegularFiles (es : List DirEntry) : Nat :=
  (es.filterMap (fun e => match e with | DirEntry.file _ sz => some sz | _ => none)).sum

/-- Number of network fetches in an event log. -/
def fetchCount (evs : List Event) : Nat :=
  evs.countP (fun e => match e with | Event.fetch _ => true | _ => false)

/-- A lowercase hexadecimal digit. -/
def isLowerHexDigit (c : Char) : Bool :=
  ('0' ≤ c && c ≤ '9') || ('a' ≤ c && c ≤ 'f')

/-! ### Helper lemmas -/

theorem length_wordsToBytes (ws : List Nat) : (wordsToBytes ws).length = 4 * ws.length := by
  induction ws with
  | nil => rfl
  | cons w ws ih =>
    simp only [wordsToBytes, List.foldr_cons, List.length_cons] at *
    simp only [List.length_cons, ih]
    ring

theorem wordsToBytes_lt (ws : List Nat) : ∀ b ∈ wordsToBytes ws, b < 256 := by
  induction ws with
  | nil => intro b hb; simp [wordsToBytes] at hb
  | cons w ws ih =>
    intro b hb
    simp only [wordsToBytes, List.foldr_cons, List.mem_cons] at hb
    rcases hb with h | h | h | h | h
    · omega
    · omega
    · omega
    · omega
    · exact ih b h

theorem length_bytesToHex (bs : List Nat) : (bytesToHex bs).length = 2 * bs.length := by
  induction bs with
  | nil => rfl
  | cons b bs ih =>
    simp only [bytesToHex, List.foldr_cons, List.length_cons] at *
    simp only [List.length_cons, ih]
    ring

theorem hexDigit_lower_hex (n : Nat) (h : n < 16) : isLowerHexDigit (hexDigit n) = true := by
  interval_cases n <;> decide

theorem bytesToHex_hex (bs : List Nat) (h : ∀ b ∈ bs, b < 256) :
    ∀ c ∈ bytesToHex bs, isLowerHexDigit c = true := by
  induction bs with
  | nil => intro c hc; simp [bytesToHex] at hc
  | cons b bs ih =>
    intro c hc
    have hb : b < 256 := h b (List.mem_cons_self b bs)
    simp only [bytesToHex, List.foldr_cons, List.mem_cons] at hc
    rcases hc with rfl | rfl | hc
    · exact hexDigit_lower_hex _ (by omega)
    · exact hexDigit_lower_hex _ (Nat.mod_lt _ (by omega))
    · exact ih (fun x hx => h x (List.mem_cons_of_mem b hx)) c hc

theorem length_compressBlock (st block : List Nat) : (compressBlock st block).length = 8 := rfl

theorem length_foldl_compress (g : Nat → List Nat) (xs : List Nat) :
    ∀ st : List Nat, st.length = 8 →
      (xs.foldl (fun s i => compressBlock s (g i)) st).length = 8 := by
  induction xs with
  | nil => intro st h; simpa using h
  | cons x xs ih =>
    intro st _
    simp only [List.foldl_cons]
    exact ih _ (length_compressBlock st (g x))

theorem length_sha256 (msg : List Nat) : (sha256 msg).length = 32 := by
  unfold sha256
  rw [length_wordsToBytes, length_foldl_compress _ _ shaH0 rfl]

theorem sha256_lt (msg : List Nat) : ∀ b ∈ sha256 msg, b < 256 := by
  unfold sha256
  exact wordsToBytes_lt _

theorem sha256hex_length (msg : List Nat) : (sha256hex msg).length = 64 := by
  show (bytesToHex (sha256 msg)).length = 64
  rw [length_bytesToHex, length_sha256]

theorem sha256hex_hex (msg : List Nat) :
    (sha256hex msg).data.all isLowerHexDigit = true := by
  rw [List.all_eq_true]
  exact fun c hc => bytesToHex_hex _ (sha256_lt msg) c hc

theorem all_hex_no_dot (cs : List Char) (h : cs.all isLowerHexDigit = true) :
    cs.contains '.' = false := by
  induction cs with
  | nil => rfl
  | cons c cs ih =>
    rw [List.all_cons, Bool.and_eq_true] at h
    have hc : c ≠ '.' := by
      intro hc
      subst hc
      exact absurd h.1 (by decide)
    simp only [List.contains_cons, ih h.2, Bool.or_false]
    have : ¬('.' = c) := fun he => hc (Eq.symm he)
    simp [this]

theorem rsplitFirst_no_sep (sep : Char) (cs : List Char) (h : cs.contains sep = false) :
    rsplitFirst sep cs = cs := by
  unfold rsplitFirst
  rw [List.takeWhile_eq_self_iff.mpr, List.reverse_reverse]
  intro x hx
  rw [List.mem_reverse] at hx
  have : x ≠ sep := by
    intro hxe
    subst hxe
    rw [← List.elem_iff] at hx
    simp [List.contains] at h
    exact absurd hx (by simp [h])
  simp [this]

theorem sizeLoop_eq (es : List DirEntry) : ∀ acc, sizeLoop es acc = acc + sumRegularFiles es := by
  induction es with
  | nil => intro acc; simp [sizeLoop, sumRegularFiles]
  | cons e es ih =>
    intro acc
    cases e with
    | file n sz => simp [sizeLoop, sumRegularFiles, List.filterMap_cons, ih]; ring
    | subdir n => simp [sizeLoop, sumRegularFiles, List.filterMap_cons, ih]
    | unreadable n => simp [sizeLoop, sumRegularFiles, List.filterMap_cons, ih]

theorem get_cache_dir_ok {P : Type} (env : Env P) (w : World) (d : P)
    (hd : env.appCacheDir = Except.ok d) (hc : env.createDirAllErr = none) :
    get_cache_dir env w =
      (Except.ok (env.join d "images"), createDirUpdate w, [Event.fsCreateDir]) := by
  unfold get_cache_dir
  rw [hd, hc]

theorem guard_eq_not_isHttpUrl (url : String) :
    (!(strStartsWith url "http://") && !(strStartsWith url "https://")) = !(isHttpUrl url) := by
  unfold isHttpUrl
  cases strStartsWith url "http://" <;> cases strStartsWith url "https://" <;> rfl

theorem createDirUpdate_dirExists (w : World) : (createDirUpdate w).dirExists = true := by
  unfold createDirUpdate
  cases h : w.dirExists <;> simp [h]

theorem createDirUpdate_false (w : World) (h : w.dirExists = false) :
    createDirUpdate w = { dirExists := true, entries := [] } := by
  unfold createDirUpdate
  rw [h]
  rfl

theorem createDirUpdate_true (w : World) (h : w.dirExists = true) : createDirUpdate w = w := by
  unfold createDirUpdate
  rw [h]
  rfl

theorem pathExists_writeFileUpdate (w : World) (f : String) (n : Nat) :
    pathExists (writeFileUpdate w f n) f = true := by
  simp [pathExists, writeFileUpdate, entryName]

/-! ### Concrete environments used by witnesses and counterexamples -/

/-- A healthy environment whose fetches fail with a transport error. -/
def envOk : Env String :=
  { appCacheDir := Except.ok "/cache"
    join := fun p s => p ++ "/" ++ s
    toStr := fun p => some p
    createDirAllErr := none
    recreateDirErr := none
    removeDirAllErr := none
    readDirOk := true
    fetch := fun _ => Except.error "connection refused"
    writeErr := fun _ => none }

/-- An environment where creating the cache directory fails. -/
def envMkdirFail : Env String :=
  { envOk with createDirAllErr := some "permission denied" }

/-- A directory state mixing regular files, a subdirectory and an
unreadable entry. -/
def entriesMix : List DirEntry :=
  [DirEntry.file "aa.png" 10, DirEntry.subdir "sub",
   DirEntry.unreadable "bad", DirEntry.file "bb.bin" 5]

/-! ### The claims -/

/-- C5: `get_cache_filename` is a pure function (hence deterministic, with
no failure mode) whose output is the 64-lowercase-hex-character SHA-256
digest of the raw URL bytes (query string included), a dot, and the
inferred extension; the digest contains no dot and is unaffected by the
extension. -/
theorem c5_key_format (url : String) :
    get_cache_filename url = sha256hex (strBytes url) ++ "." ++ getExtension url
    ∧ (sha256hex (strBytes url)).length = 64
    ∧ (sha256hex (strBytes url)).data.all isLowerHexDigit = true
    ∧ (sha256hex (strBytes url)).data.contains '.' = false :=
  ⟨rfl, sha256hex_length _, sha256hex_hex _, all_hex_no_dot _ (sha256hex_hex _)⟩

/-- C2 as stated is false: when the final path segment contains no dot,
the code looks up the whole segment in the allow-list rather than
defaulting to `"bin"`; at `"http://x/jpg"` the inferred extension is
`"jpg"`, not `"bin"`. -/
theorem c2_counterexample :
    getExtension "http://x/jpg" = "jpg" ∧ getExtension "http://x/jpg" ≠ "bin" := by
  exact ⟨by decide, by decide⟩

/-- C2 (amended): the extension part of `get_cache_filename` is computed
by stripping the query string, taking the final path segment, taking its
trailing dot-suffix — or, when the segment contains no dot, the whole
segment — lower-casing that candidate and looking it up in the fixed
allow-list, with `"bin"` when the lookup fails; in particular
`"http://x/a.JPG?x=1"` yields `jpg`, and `"http://x/a.unknownext"` and
`"http://x/noext"` both yield `"bin"`. -/
theorem c2_extension_inference :
    (∀ url, getExtension url = extensionSpec url)
    ∧ (∀ url, get_cache_filename url = sha256hex (strBytes url) ++ "." ++ getExtension url)
    ∧ getExtension "http://x/a.JPG?x=1" = "jpg"
    ∧ getExtension "http://x/a.unknownext" = "bin"
    ∧ getExtension "http://x/noext" = "bin" := by
  refine ⟨?_, fun url => rfl, by decide, by decide, by decide⟩
  intro url
  unfold getExtension extensionSpec dotSuffix
  dsimp only
  by_cases h : (rsplitFirst '/' (splitFirst '?' url.data)).contains '.' = true
  · have hm : '.' ∈ rsplitFirst '/' (splitFirst '?' url.data) := by simpa using h
    simp [hm]
  · have h' : (rsplitFirst '/' (splitFirst '?' url.data)).contains '.' = false := by
      revert h
      cases (rsplitFirst '/' (splitFirst '?' url.data)).contains '.' <;> simp
    have hm : ¬('.' ∈ rsplitFirst '/' (splitFirst '?' url.data)) := by simpa using h'
    rw [rsplitFirst_no_sep '.' _ h']
    simp [hm]

/-- C3 as stated is false: when the cache root does not exist and
`create_dir_all` fails, `get_cache_size` returns an error, not 0. -/
theorem c3_counterexample :
    (World.mk false []).dirExists = false
    ∧ (get_cache_size envMkdirFail (World.mk false [])).1 =
        Except.error "创建缓存目录失败: permission denied"
    ∧ (get_cache_size envMkdirFail (World.mk false [])).1 ≠ Except.ok 0 := by
  refine ⟨rfl, rfl, fun h => ?_⟩
  rw [show (get_cache_size envMkdirFail (World.mk false [])).1 =
        Except.error "创建缓存目录失败: permission denied" from rfl] at h
  exact Except.noConfusion h

/-- C3 (amended): `get_cache_size` returns 0 when the cache root does not
yet exist, provided the cache directory path can be obtained and the
directory created; a failure to obtain or create the directory is
propagated as an error. -/
theorem c3_size_zero_when_root_missing {P : Type} (env : Env P) (w : World) (d : P)
    (hd : env.appCacheDir = Except.ok d) (hc : env.createDirAllErr = none)
    (hroot : w.dirExists = false) :
    (get_cache_size env w).1 = Except.ok 0 := by
  unfold get_cache_size
  rw [get_cache_dir_ok env w d hd hc, createDirUpdate_false w hroot]
  cases hr : env.readDirOk <;> simp [hr, sizeLoop]

/-- C3 witness: a concrete healthy environment and an absent cache root. -/
theorem c3_witness :
    envOk.appCacheDir = Except.ok "/cache" ∧ envOk.createDirAllErr = none
    ∧ (World.mk false []).dirExists = false
    ∧ (get_cache_size envOk (World.mk false [])).1 = Except.ok 0 :=
  ⟨rfl, rfl, rfl, c3_size_zero_when_root_missing envOk (World.mk false []) "/cache" rfl rfl rfl⟩

/-- C7: with the cache root present, `get_cache_size` returns exactly the
sum of the sizes of the regular files directly inside it; subdirectories
contribute nothing and unreadable entries are skipped rather than
failing the operation. -/
theorem c7_size_sums_regular_files {P : Type} (env : Env P) (w : World) (d : P)
    (hd : env.appCacheDir = Except.ok d) (hc : env.createDirAllErr = none)
    (hr : env.readDirOk = true)
    (hw : w.dirExists = false → w.entries = []) :
    (get_cache_size env w).1 = Except.ok (sumRegularFiles w.entries) := by
  unfold get_cache_size
  rw [get_cache_dir_ok env w d hd hc]
  cases h : w.dirExists with
  | true => rw [createDirUpdate_true w h]; simp [h, hr, sizeLoop_eq]
  | false =>
    rw [createDirUpdate_false w h, hw h]
    simp [hr, sizeLoop, sumRegularFiles]

/-- C7 witness: a root holding two files, a subdirectory and an
unreadable entry; the size is the sum of the two file sizes. -/
theorem c7_witness :
    envOk.appCacheDir = Except.ok "/cache" ∧ envOk.createDirAllErr = none
    ∧ envOk.readDirOk = true
    ∧ sumRegularFiles entriesMix = 15
    ∧ (get_cache_size envOk (World.mk true entriesMix)).1 =
        Except.ok (sumRegularFiles entriesMix) :=
  ⟨rfl, rfl, rfl, by decide,
   c7_size_sums_regular_files envOk (World.mk true entriesMix) "/cache" rfl rfl rfl
     (fun h => nomatch h)⟩

/-- C8: an input that is not an absolute HTTP/HTTPS URL is returned
unchanged as a success, with the world untouched and no filesystem or
network operation performed. -/
theorem c8_non_http_short_circuit {P : Type} (env : Env P) (w : World) (url : String)
    (h : isHttpUrl url = false) :
    get_cached_file_path env url w = (Except.ok url, w, ([] : List Event)) := by
  unfold get_cached_file_path
  rw [guard_eq_not_isHttpUrl, h]
  rfl

/-- C8 witness: a `file://` URL is returned unchanged with no effects. -/
theorem c8_witness :
    isHttpUrl "file:///local/path" = false
    ∧ get_cached_file_path envOk "file:///local/path" (World.mk false []) =
        (Except.ok "file:///local/path", World.mk false [], ([] : List Event)) :=
  ⟨by decide, c8_non_http_short_circuit envOk (World.mk false []) "file:///local/path" (by decide)⟩

/-- C10: the legacy command `get_cached_image_path` returns exactly the
result of `get_cached_file_path` on the same input, in every environment
and state. -/
theorem c10_image_path_delegates {P : Type} (env : Env P) (url : String) (w : World) :
    get_cached_image_path env url w = get_cached_file_path env url w := rfl

theorem dirExists_writeFileUpdate (w : World) (f : String) (n : Nat) :
    (writeFileUpdate w f n).dirExists = w.dirExists := rfl

/-- The cache-hit execution of `get_cached_file_path`: dir obtained, file
present, path rendered. -/
theorem resolve_hit {P : Type} (env : Env P) (w : World) (url : String) (d : P) (p : String)
    (hurl : isHttpUrl url = true)
    (hd : env.appCacheDir = Except.ok d)
    (hc : env.createDirAllErr = none)
    (hp : env.toStr (env.join (env.join d "images") (get_cache_filename url)) = some p)
    (hhit : pathExists (createDirUpdate w) (get_cache_filename url) = true) :
    get_cached_file_path env url w =
      (Except.ok p, createDirUpdate w,
       [Event.fsCreateDir, Event.fsExistsCheck (get_cache_filename url)]) := by
  unfold get_cached_file_path
  rw [guard_eq_not_isHttpUrl, hurl]
  rw [get_cache_dir_ok env w d hd hc]
  dsimp only
  rw [hhit]
  simp [hp]

/-- C1: on the cache-miss path, a transport error, a non-success HTTP
status, or a failing write all make `get_cached_file_path` return the
original URL itself as a success value. -/
theorem c1_fetch_or_write_failure_returns_original_url {P : Type} (env : Env P) (w : World)
    (url : String) (d : P)
    (hurl : isHttpUrl url = true)
    (hd : env.appCacheDir = Except.ok d)
    (hc : env.createDirAllErr = none)
    (hmiss : pathExists (createDirUpdate w) (get_cache_filename url) = false)
    (hfail : (∃ e, env.fetch url = Except.error e)
      ∨ (∃ r, env.fetch url = Except.ok r ∧ is_success r.status = false)
      ∨ (∃ r b, env.fetch url = Except.ok r ∧ is_success r.status = true
          ∧ r.body = Except.ok b ∧ env.writeErr (get_cache_filename url) ≠ none)) :
    (get_cached_file_path env url w).1 = Except.ok url := by
  unfold get_cached_file_path
  rw [guard_eq_not_isHttpUrl, hurl]
  rw [get_cache_dir_ok env w d hd hc]
  dsimp only
  rw [hmiss]
  rcases hfail with ⟨e, hf⟩ | ⟨r, hf, hs⟩ | ⟨r, b, hf, hs, hb, hwr⟩
  · simp [download_and_cache, hf]
  · simp [download_and_cache, hf, hs]
  · obtain ⟨e, he⟩ := Option.ne_none_iff_exists'.mp hwr
    simp [download_and_cache, hf, hs, hb, he]

/-- C1 witness: transport failure on a fresh cache returns the URL. -/
theorem c1_witness :
    isHttpUrl "http://example.com/aa.png" = true
    ∧ envOk.appCacheDir = Except.ok "/cache"
    ∧ envOk.createDirAllErr = none
    ∧ pathExists (createDirUpdate (World.mk false []))
        (get_cache_filename "http://example.com/aa.png") = false
    ∧ (get_cached_file_path envOk "http://example.com/aa.png" (World.mk false [])).1 =
        Except.ok "http://example.com/aa.png" :=
  ⟨by decide, rfl, rfl, rfl,
   c1_fetch_or_write_failure_returns_original_url envOk (World.mk false [])
     "http://example.com/aa.png" "/cache" (by decide) rfl rfl rfl
     (Or.inl ⟨"connection refused", rfl⟩)⟩

/-- C4: when the derived cache file already exists, `get_cached_file_path`
returns its path with zero fetches; and after a first resolve whose
download succeeds, a second resolve returns the same path with zero
fetches. -/
theorem c4_cache_hit_no_fetch {P : Type} (env : Env P) (w : World) (url : String)
    (d : P) (p : String)
    (hurl : isHttpUrl url = true)
    (hd : env.appCacheDir = Except.ok d)
    (hc : env.createDirAllErr = none)
    (hp : env.toStr (env.join (env.join d "images") (get_cache_filename url)) = some p) :
    (pathExists (createDirUpdate w) (get_cache_filename url) = true →
      (get_cached_file_path env url w).1 = Except.ok p
      ∧ fetchCount (get_cached_file_path env url w).2.2 = 0)
    ∧ (∀ r b, pathExists (createDirUpdate w) (get_cache_filename url) = false →
        env.fetch url = Except.ok r → is_success r.status = true →
        r.body = Except.ok b → env.writeErr (get_cache_filename url) = none →
        (get_cached_file_path env url w).1 = Except.ok p
        ∧ (get_cached_file_path env url (get_cached_file_path env url w).2.1).1 = Except.ok p
        ∧ fetchCount (get_cached_file_path env url (get_cached_file_path env url w).2.1).2.2 = 0) := by
  constructor
  · intro hhit
    rw [resolve_hit env w url d p hurl hd hc hp hhit]
    exact ⟨rfl, rfl⟩
  · intro r b hmiss hf hs hb hwr
    have hdl : download_and_cache env url (get_cache_filename url) (createDirUpdate w) =
        (Except.ok (),
         writeFileUpdate (createDirUpdate w) (get_cache_filename url) b.length,
         [Event.fetch url, Event.fsWrite (get_cache_filename url)]) := by
      unfold download_and_cache
      rw [hf]
      simp [hs, hb, hwr]
    have hres : get_cached_file_path env url w =
        (Except.ok p,
         writeFileUpdate (createDirUpdate w) (get_cache_filename url) b.length,
         [Event.fsCreateDir, Event.fsExistsCheck (get_cache_filename url),
          Event.fetch url, Event.fsWrite (get_cache_filename url)]) := by
      unfold get_cached_file_path
      rw [guard_eq_not_isHttpUrl, hurl]
      rw [get_cache_dir_ok env w d hd hc]
      dsimp only
      rw [hmiss]
      rw [hdl]
      simp [hp]
    have hw1 : (get_cached_file_path env url w).2.1 =
        writeFileUpdate (createDirUpdate w) (get_cache_filename url) b.length := by
      rw [hres]
    have hde : (writeFileUpdate (createDirUpdate w) (get_cache_filename url) b.length).dirExists
        = true := by
      rw [dirExists_writeFileUpdate, createDirUpdate_dirExists]
    have hhit1 : pathExists
        (createDirUpdate (writeFileUpdate (createDirUpdate w) (get_cache_filename url) b.length))
        (get_cache_filename url) = true := by
      rw [createDirUpdate_true _ hde]
      exact pathExists_writeFileUpdate _ _ _
    have hres2 := resolve_hit env
      (writeFileUpdate (createDirUpdate w) (get_cache_filename url) b.length)
      url d p hurl hd hc hp hhit1
    refine ⟨by rw [hres], ?_, ?_⟩
    · rw [hw1, hres2]
    · rw [hw1, hres2]
      rfl

/-- C9: `get_cached_file_path` can return an error only when obtaining or
creating the cache directory fails, or when the resolved cache path is
not representable as UTF-8; fetch and write failures alone never
produce an error. -/
theorem c9_error_cases {P : Type} (env : Env P) (w : World) (url : String) (e : String)
    (herr : (get_cached_file_path env url w).1 = Except.error e) :
    (∃ m, env.appCacheDir = Except.error m)
    ∨ env.createDirAllErr ≠ none
    ∨ (∃ d, env.appCacheDir = Except.ok d
        ∧ env.toStr (env.join (env.join d "images") (get_cache_filename url)) = none) := by
  rcases hA : env.appCacheDir with m | d
  · exact Or.inl ⟨m, rfl⟩
  rcases hC : env.createDirAllErr with _ | c
  case ok.some => exact Or.inr (Or.inl (fun h => Option.noConfusion h))
  refine Or.inr (Or.inr ⟨d, rfl, ?_⟩)
  by_contra hts
  obtain ⟨s, hs⟩ := Option.ne_none_iff_exists'.mp hts
  unfold get_cached_file_path at herr
  rcases hg : (!(strStartsWith url "http://") && !(strStartsWith url "https://")) with _ | _
  · rw [hg] at herr
    rw [get_cache_dir_ok env w d hA hC] at herr
    dsimp only at herr
    rcases hpe : pathExists (createDirUpdate w) (get_cache_filename url) with _ | _
    · rw [hpe] at herr
      rcases hdl : download_and_cache env url (get_cache_filename url) (createDirUpdate w)
        with ⟨res, w2, evs2⟩
      rw [hdl] at herr
      cases res with
      | ok u => rw [hs] at herr; simp at herr
      | error e2 => simp at herr
    · rw [hpe, hs] at herr
      simp at herr
  · rw [hg] at herr
    simp at herr

/-- C6: after a successful `clear_image_cache` the cache root exists and
is empty (so a following `get_cache_size` yields 0), the directory is
removed recursively and immediately recreated, and a removal or
re-creation failure is propagated as an error. -/
theorem c6_clear_cache {P : Type} (env : Env P) (w : World) (d : P)
    (hd : env.appCacheDir = Except.ok d) (hc : env.createDirAllErr = none) :
    (env.removeDirAllErr = none → env.recreateDirErr = none →
      (clear_image_cache env w).1 = Except.ok ()
      ∧ (clear_image_cache env w).2.1 = World.mk true []
      ∧ (clear_image_cache env w).2.2 =
          [Event.fsCreateDir, Event.fsRemoveDirAll, Event.fsCreateDir]
      ∧ (get_cache_size env (clear_image_cache env w).2.1).1 = Except.ok 0)
    ∧ (∀ e, env.removeDirAllErr = some e →
        (clear_image_cache env w).1 = Except.error ("清除缓存失败: " ++ e))
    ∧ (∀ e, env.removeDirAllErr = none → env.recreateDirErr = some e →
        (clear_image_cache env w).1 = Except.error ("创建缓存目录失败: " ++ e)) := by
  refine ⟨?_, ?_, ?_⟩
  · intro hrm hrc
    have hcl : clear_image_cache env w =
        (Except.ok (), World.mk true [],
         [Event.fsCreateDir, Event.fsRemoveDirAll, Event.fsCreateDir]) := by
      unfold clear_image_cache
      rw [get_cache_dir_ok env w d hd hc]
      simp [createDirUpdate_dirExists, hrm, hrc]
    rw [hcl]
    refine ⟨rfl, rfl, rfl, ?_⟩
    unfold get_cache_size
    rw [get_cache_dir_ok env (World.mk true []) d hd hc, createDirUpdate_true _ rfl]
    cases hr : env.readDirOk <;> simp [hr, sizeLoop]
  · intro e hrm
    unfold clear_image_cache
    rw [get_cache_dir_ok env w d hd hc]
    simp [createDirUpdate_dirExists, hrm]
  · intro e hrm hrc
    unfold clear_image_cache
    rw [get_cache_dir_ok env w d hd hc]
    simp [createDirUpdate_dirExists, hrm, hrc]

/-- C6 witness: clearing a root with mixed entries succeeds and the size
afterwards is 0. -/
theorem c6_witness :
    envOk.appCacheDir = Except.ok "/cache" ∧ envOk.createDirAllErr = none
    ∧ (clear_image_cache envOk (World.mk true entriesMix)).1 = Except.ok ()
    ∧ (get_cache_size envOk (clear_image_cache envOk (World.mk true entriesMix)).2.1).1 =
        Except.ok 0 :=
  ⟨rfl, rfl,
   ((c6_clear_cache envOk (World.mk true entriesMix) "/cache" rfl rfl).1 rfl rfl).1,
   ((c6_clear_cache envOk (World.mk true entriesMix) "/cache" rfl rfl).1 rfl rfl).2.2.2⟩

/-- An environment whose fetch succeeds with a 200 response. -/
def envFetchOk : Env String :=
  { envOk with fetch := fun _ => Except.ok { status := 200, body := Except.ok [1, 2, 3] } }

/-- C4 witness: a fresh cache, a successful download, then a cache hit. -/
theorem c4_witness :
    isHttpUrl "http://example.com/bb.png" = true
    ∧ envFetchOk.appCacheDir = Except.ok "/cache"
    ∧ envFetchOk.createDirAllErr = none
    ∧ envFetchOk.toStr (envFetchOk.join (envFetchOk.join "/cache" "images")
        (get_cache_filename "http://example.com/bb.png")) =
      some (envFetchOk.join (envFetchOk.join "/cache" "images")
        (get_cache_filename "http://example.com/bb.png"))
    ∧ ((pathExists (createDirUpdate (World.mk false []))
          (get_cache_filename "http://example.com/bb.png") = true →
        (get_cached_file_path envFetchOk "http://example.com/bb.png" (World.mk false [])).1 =
          Except.ok (envFetchOk.join (envFetchOk.join "/cache" "images")
            (get_cache_filename "http://example.com/bb.png"))
        ∧ fetchCount (get_cached_file_path envFetchOk "http://example.com/bb.png"
            (World.mk false [])).2.2 = 0)
      ∧ (∀ r b, pathExists (createDirUpdate (World.mk false []))
            (get_cache_filename "http://example.com/bb.png") = false →
          envFetchOk.fetch "http://example.com/bb.png" = Except.ok r →
          is_success r.status = true →
          r.body = Except.ok b →
          envFetchOk.writeErr (get_cache_filename "http://example.com/bb.png") = none →
          (get_cached_file_path envFetchOk "http://example.com/bb.png" (World.mk false [])).1 =
            Except.ok (envFetchOk.join (envFetchOk.join "/cache" "images")
              (get_cache_filename "http://example.com/bb.png"))
          ∧ (get_cached_file_path envFetchOk "http://example.com/bb.png"
              (get_cached_file_path envFetchOk "http://example.com/bb.png"
                (World.mk false [])).2.1).1 =
            Except.ok (envFetchOk.join (envFetchOk.join "/cache" "images")
              (get_cache_filename "http://example.com/bb.png"))
          ∧ fetchCount (get_cached_file_path envFetchOk "http://example.com/bb.png"
              (get_cached_file_path envFetchOk "http://example.com/bb.png"
                (World.mk false [])).2.1).2.2 = 0)) :=
  ⟨by decide, rfl, rfl, rfl,
   c4_cache_hit_no_fetch envFetchOk (World.mk false []) "http://example.com/bb.png" "/cache"
     (envFetchOk.join (envFetchOk.join "/cache" "images")
       (get_cache_filename "http://example.com/bb.png"))
     (by decide) rfl rfl rfl⟩

/-- An environment whose resolved cache path is not valid UTF-8. -/
def envBadPath : Env String :=
  { envOk with
    toStr := fun _ => none
    fetch := fun _ => Except.ok { status := 200, body := Except.ok [1, 2, 3] } }

/-- C9 witness: a non-UTF-8 cache path makes resolve fail, and the failure
falls under the enumerated cases. -/
theorem c9_witness :
    (get_cached_file_path envBadPath "http://a" (World.mk false [])).1 =
      Except.error "路径转换失败"
    ∧ ((∃ m, envBadPath.appCacheDir = Except.error m)
      ∨ envBadPath.createDirAllErr ≠ none
      ∨ (∃ d, envBadPath.appCacheDir = Except.ok d
          ∧ envBadPath.toStr (envBadPath.join (envBadPath.join d "images")
              (get_cache_filename "http://a")) = none)) :=
  ⟨rfl, c9_error_cases envBadPath (World.mk false []) "http://a" "路径转换失败" rfl⟩

end ImageCache
